import Mathlib

/-!
Shallow embedding of the WhatsApp backup viewer's parsing, merging, timeline
and media-cache code. JavaScript `Date.getTime()` values are modelled as `Int`
milliseconds; `Math.floor` on such values is `Int.fdiv` and JavaScript's
truncating division (`Math.trunc`, used by date-fns) is `Int.tdiv`. Strings
are Lean `String`s; the regex-based matching in the source is embedded as
explicit character-list scanners with the same backtracking behaviour.
-/

/-- The eight message types of `src/types/index.ts` (`MessageType`). -/
inductive MessageType where
  | text
  | image
  | video
  | audio
  | document
  | sticker
  | call
  | system
deriving Repr, DecidableEq

/-- Call kinds, from the `callKind?: 'voice' | 'video'` field. -/
inductive CallKind where
  | voice
  | video
deriving Repr, DecidableEq

/-- Quoted message snapshot (`QuotedMessage` in `src/types/index.ts`). -/
structure QuotedMessage where
  sender : String
  content : String
deriving Repr, DecidableEq

/-- The `Message` record of `src/types/index.ts`. `timestamp` is the
`Date.getTime()` millisecond value. Optional JavaScript fields are `Option`s. -/
structure Message where
  id : String
  timestamp : Int
  sender : String
  type : MessageType
  content : String
  mediaUrl : Option String := none
  mediaFileName : Option String := none
  mediaMimeType : Option String := none
  mediaSize : Option Nat := none
  driveFileId : Option String := none
  thumbnailUrl : Option String := none
  isOutgoing : Bool := false
  isEdited : Option Bool := none
  quotedMessage : Option QuotedMessage := none
  callDuration : Option String := none
  callKind : Option CallKind := none
  callMissed : Option Bool := none
deriving Repr, DecidableEq

/-- The `Participant` record of `src/types/index.ts`. -/
structure Participant where
  id : String
  name : String
  color : String
deriving Repr, DecidableEq

/-- The `Chat` record of `src/types/index.ts`. -/
structure Chat where
  id : String
  name : String
  participants : List Participant
  messages : List Message
  isGroup : Bool
deriving Repr, DecidableEq

/-- The `MediaFile` record of `src/types/index.ts` (attachment index entry). -/
structure MediaFile where
  fileName : String
  url : String
  mimeType : String
  size : Option Nat := none
  driveFileId : Option String := none
  thumbnailLink : Option String := none
deriving Repr, DecidableEq

/-- The `ChatParseResult` record of `src/types/index.ts`. -/
structure ChatParseResult where
  chat : Chat
  errors : List String
deriving Repr, DecidableEq

/-! ## JavaScript string primitives

Character-list implementations of the JavaScript string operations used by the
source (`toLowerCase`, `trim`, `split`, `join`, `startsWith`, substring
search). They are written as structural recursions so that concrete runs
reduce inside the kernel. -/

/-- The JavaScript `\s` character class (WhiteSpace and LineTerminator),
which is also the set removed by `String.prototype.trim`. -/
def jsIsSpace (c : Char) : Bool :=
  c = ' ' || c = '\t' || c = '\n' || c = '\x0b' || c = '\x0c' || c = '\r' ||
  c.val = 0xA0 || c.val = 0x1680 || (0x2000 ≤ c.val && c.val ≤ 0x200A) ||
  c.val = 0x2028 || c.val = 0x2029 || c.val = 0x202F || c.val = 0x205F ||
  c.val = 0x3000 || c.val = 0xFEFF

/-- JavaScript `toLowerCase` (on the ASCII range that the source relies on). -/
def jsToLower (s : String) : String :=
  String.mk (s.data.map Char.toLower)

/-- JavaScript `String.prototype.trim`: strip leading and trailing
whitespace. -/
def jsTrim (s : String) : String :=
  String.mk (((s.data.dropWhile jsIsSpace).reverse.dropWhile jsIsSpace).reverse)

/-- JavaScript `String.prototype.split` with a single-character separator. -/
def splitOnChar (sep : Char) (s : String) : List String :=
  let p := s.data.foldr
    (fun x (acc : List Char × List (List Char)) =>
      if x = sep then ([], acc.1 :: acc.2) else (x :: acc.1, acc.2))
    ([], [])
  (p.1 :: p.2).map String.mk

/-- JavaScript `Array.prototype.join` with a one-character separator. -/
def joinWithChar (sep : Char) : List String → String
  | [] => ""
  | [s] => s
  | s :: rest => s ++ String.mk [sep] ++ joinWithChar sep rest

/-- Whether `pat` occurs as a prefix of `cs`. -/
def startsWithChars (cs pat : List Char) : Bool :=
  match pat, cs with
  | [], _ => true
  | _ :: _, [] => false
  | p :: ps, c :: rest => p = c && startsWithChars rest ps

/-- Whether `pat` occurs as a substring of `cs` (used for the
case-insensitive `includes`/regex-test searches of the source). -/
def hasSubstr (cs pat : List Char) : Bool :=
  match cs with
  | [] => pat.isEmpty
  | _ :: rest => startsWithChars cs pat || hasSubstr rest pat

/-! ## Chat merger (`mergeMessages`, `getMessageKey`) -/

/-- The timestamp-ascending order used by every `sort` call on messages. -/
def tsLe (a b : Message) : Prop := a.timestamp ≤ b.timestamp

instance : DecidableRel tsLe := fun a b => Int.decLe a.timestamp b.timestamp

instance : IsTotal Message tsLe := ⟨fun a b => Int.le_total a.timestamp b.timestamp⟩

instance : IsTrans Message tsLe := ⟨fun _ _ _ => Int.le_trans⟩

/-- Sorting a message array with the JavaScript comparator
`(a, b) => a.timestamp.getTime() - b.timestamp.getTime()`. `Array.sort` is
stable and sorts ascending under this comparator; a stable insertion sort
produces the identical list. -/
def sortByTimestamp (msgs : List Message) : List Message :=
  msgs.insertionSort tsLe

/-- The `getMessageKey` function of the chat merger: millisecond timestamp
floored to whole seconds (`Math.floor(t / 1000) * 1000`), the sender
lowercased and trimmed, and either the lowercased media filename (when
`msg.mediaFileName` is truthy, i.e. present and nonempty) or the lowercased
trimmed content. -/
def getMessageKey (msg : Message) : String :=
  let timestamp := msg.timestamp.fdiv 1000 * 1000
  let sender := jsTrim (jsToLower msg.sender)
  match msg.mediaFileName with
  | some f =>
    if f ≠ "" then
      toString timestamp ++ "|" ++ sender ++ "|media:" ++ jsToLower f
    else
      toString timestamp ++ "|" ++ sender ++ "|" ++ jsTrim (jsToLower msg.content)
  | none =>
    toString timestamp ++ "|" ++ sender ++ "|" ++ jsTrim (jsToLower msg.content)

/-- One step of the dedup loop in `mergeMessages`: the `Set` of seen keys is a
list of strings, and `merged.push(msg)` appends. -/
def mergeStep (acc : List String × List Message) (msg : Message) :
    List String × List Message :=
  let key := getMessageKey msg
  if key ∈ acc.1 then acc else (key :: acc.1, acc.2 ++ [msg])

/-- The `mergeMessages` function of the chat merger: a single backup is only
sorted; multiple backups are flattened, sorted, and deduplicated by first
occurrence of `getMessageKey`. -/
def mergeMessages (allMessages : List (List Message)) : List Message :=
  if allMessages.length = 1 then
    sortByTimestamp (allMessages.headI)
  else
    let flatMessages := sortByTimestamp allMessages.flatten
    (flatMessages.foldl mergeStep ([], [])).2

/-- Spec-side description of the multi-source merge, written from the spec's
words: keep only the first occurrence (in the given order) of each
content-addressed key, carrying the set of already-seen keys. -/
def keepFirstByKey (seen : List String) : List Message → List Message
  | [] => []
  | m :: rest =>
    if getMessageKey m ∈ seen then keepFirstByKey seen rest
    else m :: keepFirstByKey (getMessageKey m :: seen) rest

/-- Spec-side description of `mergeMessages` for two or more sources: pool all
messages, sort by timestamp ascending, keep the first occurrence of each key. -/
def mergeSpecDescription (allMessages : List (List Message)) : List Message :=
  keepFirstByKey [] (sortByTimestamp allMessages.flatten)

theorem mergeStep_foldl (l : List Message) (seen : List String)
    (acc : List Message) :
    (l.foldl mergeStep (seen, acc)).2 = acc ++ keepFirstByKey seen l := by
  induction l generalizing seen acc with
  | nil => simp [keepFirstByKey]
  | cons m rest ih =>
    by_cases h : getMessageKey m ∈ seen
    · simp [mergeStep, keepFirstByKey, h, ih]
    · simp [mergeStep, keepFirstByKey, h, ih]

/-- The spec's dedup test message: sender "Alice", content "hello",
timestamp 12:00:00.100 (milliseconds within the day). -/
def aliceMsgA : Message :=
  { id := "a", timestamp := 43200100, sender := "Alice",
    type := .text, content := "hello" }

/-- The same message as recorded by a second backup at 12:00:00.900. -/
def aliceMsgB : Message :=
  { id := "b", timestamp := 43200900, sender := "Alice",
    type := .text, content := "hello" }

/-- C2: with two or more source arrays, `mergeMessages` pools all messages,
sorts them by timestamp ascending and keeps only the first occurrence of each
content-addressed key (second-floored timestamp, lowercased trimmed sender,
lowercased media filename for media messages or lowercased trimmed content for
text); in particular the two "Alice"/"hello" messages at 12:00:00.100 and
12:00:00.900 merge into exactly one message. -/
theorem C2_merge_dedup_multi_source :
    (∀ allMessages : List (List Message), 2 ≤ allMessages.length →
      mergeMessages allMessages = mergeSpecDescription allMessages) ∧
    mergeMessages [[aliceMsgA], [aliceMsgB]] = [aliceMsgA] := by
  constructor
  · intro allMessages h
    have hne : allMessages.length ≠ 1 := by omega
    simp only [mergeMessages, mergeSpecDescription, hne, if_false]
    exact mergeStep_foldl _ [] []
  · decide

/-- Witness for C2 at the spec's concrete two-source example. -/
theorem C2_merge_dedup_multi_source_witness :
    2 ≤ ([[aliceMsgA], [aliceMsgB]] : List (List Message)).length ∧
    mergeMessages [[aliceMsgA], [aliceMsgB]] =
      mergeSpecDescription [[aliceMsgA], [aliceMsgB]] :=
  ⟨by decide, C2_merge_dedup_multi_source.1 _ (by decide)⟩

/-- C8: merging exactly one source array just sorts it by timestamp
ascending; the output is a permutation of the input (duplicates internal to
the single source included) and is sorted. -/
theorem C8_merge_single_source (msgs : List Message) :
    mergeMessages [msgs] = sortByTimestamp msgs ∧
    (mergeMessages [msgs]).Perm msgs ∧
    List.Sorted tsLe (mergeMessages [msgs]) := by
  refine ⟨rfl, ?_, ?_⟩
  · exact List.perm_insertionSort tsLe msgs
  · exact List.sorted_insertionSort tsLe msgs

/-! ## Bounded media cache (`MediaCacheService`)

State of the Cache Storage backing `MediaCacheService`: a list of cached
entries (each entry's metadata records its `driveFileId`, byte size and
last-access time; the response blob's size equals the metadata size) together
with the service's `cacheSize` accounting field. Rational arithmetic is used
for the threshold comparison `MAX_CACHE_SIZE * EVICTION_THRESHOLD`, whose
value 1932735283.2 lies strictly between consecutive integers, so exact
rationals order integers exactly as the JavaScript floats do. -/

/-- The cached-entry metadata stored alongside each blob. -/
structure CacheEntry where
  driveFileId : String
  size : Nat
  lastAccessed : Int
deriving Repr, DecidableEq

/-- The cache state: resident entries plus the service's size accounting. -/
structure CacheState where
  entries : List CacheEntry
  cacheSize : Int
deriving Repr, DecidableEq

/-- The `MAX_CACHE_SIZE` constant: 2 GiB. -/
def MAX_CACHE_SIZE : Nat := 2 * 1024 * 1024 * 1024

/-- The `EVICTION_THRESHOLD` constant: start evicting at 90% full. -/
def EVICTION_THRESHOLD : ℚ := 9 / 10

/-- The eviction boundary `MAX_CACHE_SIZE * EVICTION_THRESHOLD`. -/
def evictionLimit : ℚ := (MAX_CACHE_SIZE : ℚ) * EVICTION_THRESHOLD

/-- Ascending last-access order, used by `evictLRU`'s sort. -/
def accLe (a b : CacheEntry) : Prop := a.lastAccessed ≤ b.lastAccessed

instance : DecidableRel accLe := fun a b => Int.decLe a.lastAccessed b.lastAccessed

instance : IsTotal CacheEntry accLe := ⟨fun a b => Int.le_total a.lastAccessed b.lastAccessed⟩

instance : IsTrans CacheEntry accLe := ⟨fun _ _ _ => Int.le_trans⟩

/-- The eviction loop of `evictLRU`: walk entries oldest-first, breaking once
`cacheSize - freedSpace + spaceNeeded` drops below the eviction boundary;
`cur` is `cacheSize - freedSpace`. Returns the surviving entries and the
total freed space. -/
def evictLoop (cur : Int) (spaceNeeded : Nat) : List CacheEntry → List CacheEntry × Int
  | [] => ([], 0)
  | e :: rest =>
    if (cur : ℚ) + (spaceNeeded : ℚ) < evictionLimit then (e :: rest, 0)
    else
      let r := evictLoop (cur - (e.size : Int)) spaceNeeded rest
      (r.1, r.2 + (e.size : Int))

/-- The `evictLRU` method: sort entries by `lastAccessed` ascending, delete
oldest-first until enough headroom exists, and subtract the freed space from
the size accounting. -/
def evictLRU (s : CacheState) (spaceNeeded : Nat) : CacheState :=
  let sorted := s.entries.insertionSort accLe
  let r := evictLoop s.cacheSize spaceNeeded sorted
  { entries := r.1, cacheSize := s.cacheSize - r.2 }

/-- The `addToCache` method: evict if the projected size crosses the
eviction boundary, then unconditionally `cache.put` the new entry and add its
size to the accounting. -/
def addToCache (s : CacheState) (driveFileId : String) (size : Nat) (now : Int) :
    CacheState :=
  let s1 :=
    if evictionLimit < (s.cacheSize : ℚ) + (size : ℚ) then evictLRU s size else s
  { entries := s1.entries ++ [⟨driveFileId, size, now⟩],
    cacheSize := s1.cacheSize + (size : Int) }

/-- Aggregate resident size: the sum of the resident entries' blob sizes. -/
def sumSizes (l : List CacheEntry) : Int :=
  (l.map fun e => (e.size : Int)).sum

/-- Aggregate resident size of a cache state. -/
def totalSize (s : CacheState) : Int := sumSizes s.entries

/-- The size accounting matches the resident entries (established initially by
`calculateCacheSize`). -/
def sizeAccounted (s : CacheState) : Prop := s.cacheSize = totalSize s

/-- An insertion request: `driveFileId`, blob size, access time. -/
abbrev CacheInsert := String × Nat × Int

/-- Running a sequence of insertions through `addToCache`. -/
def runInserts (s : CacheState) (inserts : List CacheInsert) : CacheState :=
  inserts.foldl (fun t i => addToCache t i.1 i.2.1 i.2.2) s

/-- The empty cache. -/
def emptyCache : CacheState := ⟨[], 0⟩

theorem sumSizes_append (l₁ l₂ : List CacheEntry) :
    sumSizes (l₁ ++ l₂) = sumSizes l₁ + sumSizes l₂ := by
  simp [sumSizes]

theorem evictLoop_spec (sp : Nat) (l : List CacheEntry) (cur : Int)
    (h : cur = sumSizes l) :
    cur - (evictLoop cur sp l).2 = sumSizes (evictLoop cur sp l).1 ∧
    ((evictLoop cur sp l).1 = [] ∨
      ((cur : ℚ) - ((evictLoop cur sp l).2 : ℚ) + (sp : ℚ) < evictionLimit)) := by
  induction l generalizing cur with
  | nil =>
    simp [evictLoop, sumSizes] at h ⊢
    omega
  | cons e rest ih =>
    by_cases hc : (cur : ℚ) + (sp : ℚ) < evictionLimit
    · constructor
      · simp [evictLoop, hc, ← h]
      · refine Or.inr ?_
        simp only [evictLoop, hc, if_true]
        push_cast
        linarith
    · have hrec := ih (cur - (e.size : Int)) (by simp [sumSizes] at h ⊢; omega)
      refine ⟨?_, ?_⟩
      · simp only [evictLoop, hc, if_false]
        omega
      · rcases hrec.2 with h2 | h2
        · exact Or.inl (by simp only [evictLoop, hc, if_false]; exact h2)
        · refine Or.inr ?_
          simp only [evictLoop, hc, if_false]
          push_cast at h2 ⊢
          linarith

theorem evictLRU_spec (s : CacheState) (sp : Nat) (hwf : sizeAccounted s) :
    sizeAccounted (evictLRU s sp) ∧
    ((evictLRU s sp).entries = [] ∨
      ((evictLRU s sp).cacheSize : ℚ) + (sp : ℚ) < evictionLimit) := by
  have hperm : (s.entries.insertionSort accLe).Perm s.entries :=
    List.perm_insertionSort accLe s.entries
  have hsum : sumSizes (s.entries.insertionSort accLe) = sumSizes s.entries :=
    List.Perm.sum_eq (hperm.map fun e => (e.size : Int))
  have h0 : s.cacheSize = sumSizes (s.entries.insertionSort accLe) := by
    rw [hsum]; exact hwf
  have hspec := evictLoop_spec sp (s.entries.insertionSort accLe) s.cacheSize h0
  constructor
  · show (evictLRU s sp).cacheSize = totalSize (evictLRU s sp)
    simpa [evictLRU, totalSize] using hspec.1
  · rcases hspec.2 with h2 | h2
    · exact Or.inl (by simp [evictLRU, h2])
    · refine Or.inr ?_
      show ((s.cacheSize - (evictLoop s.cacheSize sp (s.entries.insertionSort accLe)).2 : Int) : ℚ) + (sp : ℚ) < evictionLimit
      push_cast
      linarith

theorem addToCache_step (s : CacheState) (id : String) (size : Nat) (now : Int)
    (hwf : sizeAccounted s) :
    sizeAccounted (addToCache s id size now) ∧
    ((totalSize (addToCache s id size now) : ℚ) ≤ evictionLimit ∨
      totalSize (addToCache s id size now) = (size : Int)) ∧
    (⟨id, size, now⟩ : CacheEntry) ∈ (addToCache s id size now).entries := by
  by_cases hc : evictionLimit < (s.cacheSize : ℚ) + (size : ℚ)
  · have hev := evictLRU_spec s size hwf
    refine ⟨?_, ?_, ?_⟩
    · show (addToCache s id size now).cacheSize = totalSize (addToCache s id size now)
      simp only [addToCache, hc, if_true, totalSize]
      rw [sumSizes_append]
      have := hev.1
      simp only [sizeAccounted, totalSize] at this
      simp [sumSizes, this]
    · rcases hev.2 with h2 | h2
      · refine Or.inr ?_
        have hz : (evictLRU s size).cacheSize = 0 := by
          have := hev.1
          simp only [sizeAccounted, totalSize, h2, sumSizes] at this
          simpa using this
        simp only [addToCache, hc, if_true, totalSize, sumSizes_append, h2]
        simp [sumSizes]
      · refine Or.inl ?_
        have hacc := hev.1
        simp only [sizeAccounted, totalSize] at hacc
        simp only [addToCache, hc, if_true, totalSize, sumSizes_append]
        rw [← hacc]
        have hone : sumSizes [(⟨id, size, now⟩ : CacheEntry)] = (size : Int) := by
          simp [sumSizes]
        rw [hone]
        push_cast
        linarith
    · simp [addToCache, hc]
  · refine ⟨?_, ?_, ?_⟩
    · show (addToCache s id size now).cacheSize = totalSize (addToCache s id size now)
      simp only [addToCache, if_neg hc, totalSize, sumSizes_append]
      rw [hwf]
      simp [sumSizes, totalSize]
    · refine Or.inl ?_
      have hle : (s.cacheSize : ℚ) + (size : ℚ) ≤ evictionLimit := not_lt.mp hc
      simp only [addToCache, if_neg hc, totalSize, sumSizes_append]
      have hwf' : s.cacheSize = sumSizes s.entries := hwf
      rw [← hwf']
      have hone : sumSizes [(⟨id, size, now⟩ : CacheEntry)] = (size : Int) := by
        simp [sumSizes]
      rw [hone]
      push_cast
      linarith
    · simp [addToCache, if_neg hc]

theorem runInserts_accounted (inserts : List CacheInsert) (s : CacheState)
    (h : sizeAccounted s) : sizeAccounted (runInserts s inserts) := by
  induction inserts generalizing s with
  | nil => exact h
  | cons i rest ih =>
    exact ih _ (addToCache_step s i.1 i.2.1 i.2.2 h).1

/-- C1 counterexample: inserting a single 2 GiB blob - individually larger
than the eviction threshold T = 0.9 * 2 GiB - into the empty cache leaves the
aggregate resident size above T, and the oversized entry IS persisted in the
cache, contradicting the claim that it is never persisted and that the
aggregate never exceeds T. -/
theorem C1_counterexample :
    evictionLimit <
      (totalSize (runInserts emptyCache [("big", 2147483648, 0)]) : ℚ) ∧
    (runInserts emptyCache [("big", 2147483648, 0)]).entries =
      [⟨"big", 2147483648, 0⟩] := by
  constructor
  · norm_num [runInserts, addToCache, emptyCache, evictLRU, evictLoop,
      totalSize, sumSizes, evictionLimit, MAX_CACHE_SIZE, EVICTION_THRESHOLD]
  · norm_num [runInserts, addToCache, emptyCache, evictLRU, evictLoop,
      evictionLimit, MAX_CACHE_SIZE, EVICTION_THRESHOLD]

/-- C1 (amended): for every sequence of insertions into the media cache,
after any insert the aggregate resident size either stays at or below the
eviction threshold T = 0.9 * MAX_CACHE_SIZE or equals the size of the entry
just inserted; consequently the aggregate never exceeds T whenever each
inserted entry individually fits within T. An entry larger than T is fetched
and returned to the caller and, after evicting everything else, is still
persisted in the cache (it is always a resident entry after its insert). -/
theorem C1_amended_cache_occupancy (pre : List CacheInsert) (ins : CacheInsert) :
    ((totalSize (runInserts emptyCache (pre ++ [ins])) : ℚ) ≤ evictionLimit ∨
      totalSize (runInserts emptyCache (pre ++ [ins])) = (ins.2.1 : Int)) ∧
    ((ins.2.1 : ℚ) ≤ evictionLimit →
      (totalSize (runInserts emptyCache (pre ++ [ins])) : ℚ) ≤ evictionLimit) ∧
    (⟨ins.1, ins.2.1, ins.2.2⟩ : CacheEntry) ∈
      (runInserts emptyCache (pre ++ [ins])).entries := by
  have hpre : sizeAccounted (runInserts emptyCache pre) :=
    runInserts_accounted pre emptyCache rfl
  have hsplit : runInserts emptyCache (pre ++ [ins]) =
      addToCache (runInserts emptyCache pre) ins.1 ins.2.1 ins.2.2 := by
    simp [runInserts]
  have hstep := addToCache_step (runInserts emptyCache pre) ins.1 ins.2.1 ins.2.2 hpre
  rw [hsplit]
  refine ⟨hstep.2.1, ?_, hstep.2.2⟩
  intro hfit
  rcases hstep.2.1 with h | h
  · exact h
  · rw [h]
    exact_mod_cast hfit

/-- Witness for C1 (amended) at a concrete small insert. -/
theorem C1_amended_cache_occupancy_witness :
    ((100 : Nat) : ℚ) ≤ evictionLimit ∧
    (totalSize (runInserts emptyCache ([] ++ [("a", 100, 7)])) : ℚ) ≤ evictionLimit ∧
    (⟨"a", 100, 7⟩ : CacheEntry) ∈
      (runInserts emptyCache ([] ++ [("a", 100, 7)])).entries := by
  have hfit : ((100 : Nat) : ℚ) ≤ evictionLimit := by
    norm_num [evictionLimit, MAX_CACHE_SIZE, EVICTION_THRESHOLD]
  refine ⟨hfit, ?_, ?_⟩
  · exact (C1_amended_cache_occupancy [] ("a", 100, 7)).2.1 hfit
  · exact (C1_amended_cache_occupancy [] ("a", 100, 7)).2.2

/-! ## Timeline builder (`groupMessagesIntoBubbles`) -/

/-- The `MessageBubbleGroup` record of `src/types/index.ts`; `timestamp` is
the first message's timestamp. -/
structure MessageBubbleGroup where
  sender : String
  isOutgoing : Bool
  messages : List Message
  timestamp : Int
deriving Repr, DecidableEq

/-- date-fns `differenceInMinutes`: the millisecond difference divided by
60000 and rounded toward zero (the default `trunc` rounding method). -/
def differenceInMinutes (dateLeft dateRight : Int) : Int :=
  (dateLeft - dateRight).tdiv 60000

/-- One iteration of the `forEach` loop in `groupMessagesIntoBubbles`:
`acc.1` is `bubbleGroups` so far and `acc.2` the open `currentGroup`. -/
def bubbleStep (acc : List MessageBubbleGroup × Option MessageBubbleGroup)
    (message : Message) : List MessageBubbleGroup × Option MessageBubbleGroup :=
  if message.type = MessageType.system then
    let closed := match acc.2 with
      | some g => acc.1 ++ [g]
      | none => acc.1
    (closed ++ [⟨message.sender, false, [message], message.timestamp⟩], none)
  else
    match acc.2 with
    | some g =>
      if g.sender = message.sender ∧ g.isOutgoing = message.isOutgoing ∧
          differenceInMinutes message.timestamp g.timestamp ≤ 10 then
        (acc.1, some { g with messages := g.messages ++ [message] })
      else
        (acc.1 ++ [g],
          some ⟨message.sender, message.isOutgoing, [message], message.timestamp⟩)
    | none =>
      (acc.1, some ⟨message.sender, message.isOutgoing, [message], message.timestamp⟩)

/-- The `groupMessagesIntoBubbles` function of the timeline builder; the last
open group is flushed after the loop. -/
def groupMessagesIntoBubbles (messages : List Message) : List MessageBubbleGroup :=
  let r := messages.foldl bubbleStep ([], none)
  match r.2 with
  | some g => r.1 ++ [g]
  | none => r.1

/-- Spec-side amended grouping step: a non-system message extends the open
group iff sender and outgoing polarity match and its timestamp is strictly
less than 11 minutes after the group's first message (the truncated-minute
difference being at most 10). -/
def bubbleStepAmended (acc : List MessageBubbleGroup × Option MessageBubbleGroup)
    (message : Message) : List MessageBubbleGroup × Option MessageBubbleGroup :=
  if message.type = MessageType.system then
    let closed := match acc.2 with
      | some g => acc.1 ++ [g]
      | none => acc.1
    (closed ++ [⟨message.sender, false, [message], message.timestamp⟩], none)
  else
    match acc.2 with
    | some g =>
      if g.sender = message.sender ∧ g.isOutgoing = message.isOutgoing ∧
          message.timestamp - g.timestamp < 11 * 60000 then
        (acc.1, some { g with messages := g.messages ++ [message] })
      else
        (acc.1 ++ [g],
          some ⟨message.sender, message.isOutgoing, [message], message.timestamp⟩)
    | none =>
      (acc.1, some ⟨message.sender, message.isOutgoing, [message], message.timestamp⟩)

/-- Spec-side amended description of bubble grouping. -/
def groupBubblesAmended (messages : List Message) : List MessageBubbleGroup :=
  let r := messages.foldl bubbleStepAmended ([], none)
  match r.2 with
  | some g => r.1 ++ [g]
  | none => r.1

theorem tdiv_minutes_le_iff (d : Int) : d.tdiv 60000 ≤ 10 ↔ d < 11 * 60000 := by
  rcases d with m | m
  · show (Int.ofNat (m / 60000) : Int) ≤ 10 ↔ (Int.ofNat m : Int) < 11 * 60000
    simp only [Int.ofNat_eq_natCast]
    omega
  · show (-(Int.ofNat ((m + 1) / 60000)) : Int) ≤ 10 ↔
      (Int.negSucc m : Int) < 11 * 60000
    rw [Int.negSucc_eq]
    simp only [Int.ofNat_eq_natCast]
    omega

theorem bubbleStep_eq_amended : bubbleStep = bubbleStepAmended := by
  funext acc message
  by_cases hsys : message.type = MessageType.system
  · simp [bubbleStep, bubbleStepAmended, hsys]
  · cases hcur : acc.2 with
    | none => simp [bubbleStep, bubbleStepAmended, hsys, hcur]
    | some g =>
      have hiff := tdiv_minutes_le_iff (message.timestamp - g.timestamp)
      simp only [bubbleStep, bubbleStepAmended, differenceInMinutes, hcur,
        if_neg hsys]
      have hcond : (g.sender = message.sender ∧ g.isOutgoing = message.isOutgoing ∧
          (message.timestamp - g.timestamp).tdiv 60000 ≤ 10) ↔
          (g.sender = message.sender ∧ g.isOutgoing = message.isOutgoing ∧
          message.timestamp - g.timestamp < 11 * 60000) :=
        and_congr_right fun _ => and_congr_right fun _ => hiff
      rw [if_congr hcond rfl rfl]

/-- Bob's message at 10:00 (milliseconds within the day). -/
def bob1000 : Message :=
  { id := "b1", timestamp := 36000000, sender := "Bob", type := .text, content := "one" }

/-- Bob's message at 10:09. -/
def bob1009 : Message :=
  { id := "b2", timestamp := 36540000, sender := "Bob", type := .text, content := "two" }

/-- Bob's message at 10:19. -/
def bob1019 : Message :=
  { id := "b3", timestamp := 37140000, sender := "Bob", type := .text, content := "three" }

/-- Bob's message at 10:25. -/
def bob1025 : Message :=
  { id := "b4", timestamp := 37500000, sender := "Bob", type := .text, content := "four" }

/-- Bob's message at 10:00:00. -/
def bobEarly : Message :=
  { id := "c1", timestamp := 36000000, sender := "Bob", type := .text, content := "hi" }

/-- Bob's message at 10:10:30, i.e. 10.5 minutes after `bobEarly`. -/
def bobLate : Message :=
  { id := "c2", timestamp := 36630000, sender := "Bob", type := .text, content := "yo" }

/-- C4 counterexample: a message 10 minutes 30 seconds after the group's
first message - strictly more than 10 minutes, so by the claim it must start
a new group - is nevertheless placed in the same bubble group, because the
code compares the truncated minute difference with 10. -/
theorem C4_counterexample :
    10 * 60000 < bobLate.timestamp - bobEarly.timestamp ∧
    bobEarly.sender = bobLate.sender ∧
    bobEarly.isOutgoing = bobLate.isOutgoing ∧
    bobEarly.type ≠ MessageType.system ∧
    bobLate.type ≠ MessageType.system ∧
    (groupMessagesIntoBubbles [bobEarly, bobLate]).length = 1 := by
  decide

/-- C4 (amended): a non-system message extends the current bubble group iff
its sender and outgoing polarity equal the group's and its timestamp is
strictly less than 11 minutes after the timestamp of the group's first
message (equivalently, the truncated minute difference is at most 10); a
system message always closes any open group and forms its own singleton
group. Under this rule Bob's messages at 10:00, 10:09, 10:19 and 10:25 form
the groups [10:00, 10:09] and [10:19, 10:25]. -/
theorem C4_amended_bubble_grouping :
    (∀ messages : List Message,
      groupMessagesIntoBubbles messages = groupBubblesAmended messages) ∧
    groupMessagesIntoBubbles [bob1000, bob1009, bob1019, bob1025] =
      [⟨"Bob", false, [bob1000, bob1009], 36000000⟩,
        ⟨"Bob", false, [bob1019, bob1025], 37140000⟩] := by
  constructor
  · intro messages
    unfold groupMessagesIntoBubbles groupBubblesAmended
    rw [bubbleStep_eq_amended]
  · decide

/-! ## Date-order inference (`inferDateOrder`) -/

/-- The two date orders of `chatParser.ts` (`type DateOrder = 'DMY' | 'MDY'`). -/
inductive DateOrder where
  | DMY
  | MDY
deriving Repr, DecidableEq

/-- Numeric value of a digit string (the `parseInt(-, 10)` of a capture). -/
def digitsToNat (ds : List Char) : Nat :=
  ds.foldl (fun n c => n * 10 + (c.toNat - 48)) 0

/-- One date field of the regex `(\d{1,2})\/`: a run of one or two digits
followed by a slash. A run of three or more digits never matches, since
backtracking from two digits to one still leaves a digit where the slash is
required. Returns the field value and the remaining characters. -/
def parseDateField (cs : List Char) : Option (Nat × List Char) :=
  let ds := cs.takeWhile Char.isDigit
  if 1 ≤ ds.length ∧ ds.length ≤ 2 then
    match cs.drop ds.length with
    | '/' :: rest => some (digitsToNat ds, rest)
    | _ => none
  else none

/-- The quick date extraction `^\[?(\d{1,2})\/(\d{1,2})\/(\d{2,4})` of
`inferDateOrder`: an optional leading bracket, two slash-separated one-or-two
digit fields, and at least two further digits. Returns the two leading field
values. -/
def matchLeadingDate (line : String) : Option (Nat × Nat) :=
  let cs := match line.data with
    | '[' :: rest => rest
    | cs => cs
  match parseDateField cs with
  | none => none
  | some (a, cs1) =>
    match parseDateField cs1 with
    | none => none
    | some (b, cs2) =>
      if 2 ≤ (cs2.takeWhile Char.isDigit).length then some (a, b) else none

/-- The evidence-counting loop of `inferDateOrder` over the first 800 lines:
a first field above 12 is day-first evidence, a second field above 12 is
month-first evidence (one line can contribute both). -/
def dateOrderCounts (lines : List String) : Nat × Nat :=
  (lines.take 800).foldl
    (fun (c : Nat × Nat) line =>
      match matchLeadingDate line with
      | none => c
      | some (a, b) =>
        (if 12 < a then c.1 + 1 else c.1, if 12 < b then c.2 + 1 else c.2))
    (0, 0)

/-- The `inferDateOrder` function: exclusive evidence decides directly, mixed
evidence is resolved by the higher count with ties defaulting to day-first,
and no evidence defaults to day-first. -/
def inferDateOrder (lines : List String) : DateOrder :=
  let dmyEvidence := (dateOrderCounts lines).1
  let mdyEvidence := (dateOrderCounts lines).2
  if 0 < dmyEvidence ∧ mdyEvidence = 0 then DateOrder.DMY
  else if 0 < mdyEvidence ∧ dmyEvidence = 0 then DateOrder.MDY
  else if dmyEvidence < mdyEvidence then DateOrder.MDY
  else DateOrder.DMY

theorem dateOrderCounts_eq (lines : List String) :
    dateOrderCounts lines =
      (((lines.take 800).filterMap matchLeadingDate).countP (fun p => 12 < p.1),
        ((lines.take 800).filterMap matchLeadingDate).countP (fun p => 12 < p.2)) := by
  unfold dateOrderCounts
  generalize lines.take 800 = l
  suffices h : ∀ (c : Nat × Nat),
      l.foldl
        (fun (c : Nat × Nat) line =>
          match matchLeadingDate line with
          | none => c
          | some (a, b) =>
            (if 12 < a then c.1 + 1 else c.1, if 12 < b then c.2 + 1 else c.2))
        c =
      (c.1 + (l.filterMap matchLeadingDate).countP (fun p => 12 < p.1),
        c.2 + (l.filterMap matchLeadingDate).countP (fun p => 12 < p.2)) by
    simpa using h (0, 0)
  induction l with
  | nil => intro c; simp
  | cons line rest ih =>
    intro c
    cases hm : matchLeadingDate line with
    | none => simp [List.foldl_cons, hm, ih]
    | some p =>
      obtain ⟨a, b⟩ := p
      by_cases ha : 12 < a <;> by_cases hb : 12 < b <;>
        simp [List.foldl_cons, hm, ih, ha, hb, List.countP_cons] <;> omega

/-- C3: date-order inference over the first 800 lines returns day-first when
some scanned leading date token has a first field above 12 and no second
field ever exceeds 12; month-first in the symmetric case; with both kinds of
evidence the higher count wins and ties default to day-first; and with no
evidence at all it defaults to day-first. The concrete conjunct shows a
`31/01/2024` line forcing day-first regardless of a later ambiguous
`02/03/2024` line. -/
theorem C3_date_order_inference :
    (∀ lines : List String,
      ((∃ p ∈ (lines.take 800).filterMap matchLeadingDate, 12 < p.1) ∧
          (∀ p ∈ (lines.take 800).filterMap matchLeadingDate, p.2 ≤ 12) →
        inferDateOrder lines = DateOrder.DMY) ∧
      ((∃ p ∈ (lines.take 800).filterMap matchLeadingDate, 12 < p.2) ∧
          (∀ p ∈ (lines.take 800).filterMap matchLeadingDate, p.1 ≤ 12) →
        inferDateOrder lines = DateOrder.MDY) ∧
      ((∃ p ∈ (lines.take 800).filterMap matchLeadingDate, 12 < p.1) ∧
          (∃ p ∈ (lines.take 800).filterMap matchLeadingDate, 12 < p.2) →
        inferDateOrder lines =
          if ((lines.take 800).filterMap matchLeadingDate).countP
                (fun p => 12 < p.1) <
              ((lines.take 800).filterMap matchLeadingDate).countP
                (fun p => 12 < p.2)
          then DateOrder.MDY else DateOrder.DMY) ∧
      ((∀ p ∈ (lines.take 800).filterMap matchLeadingDate, p.1 ≤ 12 ∧ p.2 ≤ 12) →
        inferDateOrder lines = DateOrder.DMY)) ∧
    inferDateOrder ["31/01/2024, 10:00 - A: x", "02/03/2024, 10:05 - A: y"] =
      DateOrder.DMY := by
  constructor
  · intro lines
    have hc := dateOrderCounts_eq lines
    refine ⟨?_, ?_, ?_, ?_⟩
    · rintro ⟨hex, hall⟩
      have h1 : 0 < ((lines.take 800).filterMap matchLeadingDate).countP
          (fun p => 12 < p.1) := List.countP_pos_iff.mpr (by simpa using hex)
      have h2 : ((lines.take 800).filterMap matchLeadingDate).countP
          (fun p => 12 < p.2) = 0 := by
        refine List.countP_eq_zero.mpr ?_
        intro p hp
        simpa using not_lt.mpr (hall p hp)
      simp [inferDateOrder, hc, h1, h2]
    · rintro ⟨hex, hall⟩
      have h2 : 0 < ((lines.take 800).filterMap matchLeadingDate).countP
          (fun p => 12 < p.2) := List.countP_pos_iff.mpr (by simpa using hex)
      have h1 : ((lines.take 800).filterMap matchLeadingDate).countP
          (fun p => 12 < p.1) = 0 := by
        refine List.countP_eq_zero.mpr ?_
        intro p hp
        simpa using not_lt.mpr (hall p hp)
      simp [inferDateOrder, hc, h1, h2]
    · rintro ⟨hex1, hex2⟩
      have h1 : 0 < ((lines.take 800).filterMap matchLeadingDate).countP
          (fun p => 12 < p.1) := List.countP_pos_iff.mpr (by simpa using hex1)
      have h2 : 0 < ((lines.take 800).filterMap matchLeadingDate).countP
          (fun p => 12 < p.2) := List.countP_pos_iff.mpr (by simpa using hex2)
      simp only [inferDateOrder, hc]
      rw [if_neg (by omega), if_neg (by omega)]
    · intro hall
      have h1 : ((lines.take 800).filterMap matchLeadingDate).countP
          (fun p => 12 < p.1) = 0 := by
        refine List.countP_eq_zero.mpr ?_
        intro p hp
        simpa using not_lt.mpr (hall p hp).1
      have h2 : ((lines.take 800).filterMap matchLeadingDate).countP
          (fun p => 12 < p.2) = 0 := by
        refine List.countP_eq_zero.mpr ?_
        intro p hp
        simpa using not_lt.mpr (hall p hp).2
      simp [inferDateOrder, hc, h1, h2]
  · decide

/-- Witness for C3: the day-first case applied at the concrete two-line
source. -/
theorem C3_date_order_inference_witness :
    inferDateOrder ["31/01/2024, 10:00 - A: x", "02/03/2024, 10:05 - A: y"] =
      DateOrder.DMY :=
  (C3_date_order_inference.1
      ["31/01/2024, 10:00 - A: x", "02/03/2024, 10:05 - A: y"]).1
    (by decide)

/-! ## Line normalization (`normalizeWaText`) -/

/-- The invisible WhatsApp export marks removed by `normalizeWaText`:
U+200E, U+200F, U+FEFF, U+202A-U+202E, U+2060, U+00A0, U+200B. -/
def isInvisibleMark (c : Char) : Bool :=
  c.val = 0x200E || c.val = 0x200F || c.val = 0xFEFF ||
  (0x202A ≤ c.val && c.val ≤ 0x202E) || c.val = 0x2060 ||
  c.val = 0x200B || c.val = 0xA0

/-- Collapse runs of consecutive spaces to a single space. -/
def squeezeSpaces : List Char → List Char
  | [] => []
  | [c] => [c]
  | a :: b :: rest =>
    if a = ' ' ∧ b = ' ' then squeezeSpaces (b :: rest)
    else a :: squeezeSpaces (b :: rest)

/-- The `normalizeWaText` function: remove the invisible marks, collapse every
whitespace run (`\s+`) to a single space, and trim. -/
def normalizeWaText (s : String) : String :=
  let kept := s.data.filter (fun c => !isInvisibleMark c)
  let collapsed := squeezeSpaces (kept.map (fun c => if jsIsSpace c then ' ' else c))
  String.mk (((collapsed.dropWhile (· = ' ')).reverse.dropWhile (· = ' ')).reverse)

/-! ## Timestamp parsing (`parseTimestamp`)

JavaScript `new Date(year, monthIndex, day, h, m, s)` is modelled on the
proleptic Gregorian calendar with the local timezone taken as UTC (timezone
offset does not affect any property proved here, only absolute values). -/

/-- Days from the epoch 1970-01-01 of a civil date (1-based month), the
standard era-based conversion; `d` may lie outside its month, shifting the
date, exactly as the JavaScript `MakeDay` day-overflow behaves. -/
def daysFromCivil (y m d : Int) : Int :=
  let y' := y - (if m ≤ 2 then 1 else 0)
  let era := y'.fdiv 400
  let yoe := y' - era * 400
  let mp := (m + 9).emod 12
  let doy := (153 * mp + 2).fdiv 5 + d - 1
  let doe := yoe * 365 + yoe.fdiv 4 - yoe.fdiv 100 + doy
  era * 146097 + doe - 719468

/-- Milliseconds since the epoch of `new Date(year, monthIndex, day, hours,
minutes, seconds)`: months overflow into years, days into months, and a year
in 0..99 maps to 1900 + year, as in JavaScript. -/
def jsDateMs (year monthIndex day hours minutes seconds : Int) : Int :=
  let year := if 0 ≤ year ∧ year ≤ 99 then 1900 + year else year
  let ym := year + monthIndex.fdiv 12
  let mn := monthIndex.emod 12
  let days := daysFromCivil ym (mn + 1) day
  (((days * 24 + hours) * 60 + minutes) * 60 + seconds) * 1000

/-- JavaScript `parseInt(s, 10)` on the digit strings produced by the
timestamp regexes (which always start with a digit). -/
def jsParseInt (s : String) : Nat :=
  digitsToNat (s.data.takeWhile Char.isDigit)

/-- A 12-hour meridiem suffix. -/
inductive Meridiem where
  | AM
  | PM
deriving Repr, DecidableEq

/-- The four capture groups of the time regex
`(\d{1,2}):(\d{2})(?::(\d{2}))?\s*(AM|PM|am|pm)?`. -/
structure TimeParts where
  hours : Nat
  minutes : Nat
  seconds : Nat
  meridiem : Option Meridiem
deriving Repr, DecidableEq

/-- Exactly `n` leading digits: their value and the remaining characters. -/
def exactDigits (n : Nat) (cs : List Char) : Option (List Char × List Char) :=
  let ds := cs.take n
  if ds.length = n ∧ ds.all Char.isDigit then some (ds, cs.drop n) else none

/-- Match the time regex at one position: one or two digits and a colon (a
longer digit run cannot match, as with the date fields), exactly two minute
digits, optional `:SS`, optional whitespace-separated meridiem. Consuming the
optional pieces never needs to be undone, since on a later failure the
leftover `:`/letter could not match the next token either. -/
def matchTimeAt (cs : List Char) : Option TimeParts :=
  let hs := cs.takeWhile Char.isDigit
  if 1 ≤ hs.length ∧ hs.length ≤ 2 then
    match cs.drop hs.length with
    | ':' :: cs1 =>
      match exactDigits 2 cs1 with
      | none => none
      | some (ms, cs2) =>
        let (sec, cs3) :=
          match cs2 with
          | ':' :: cs2' =>
            match exactDigits 2 cs2' with
            | some (ss, rest) => (some (digitsToNat ss), rest)
            | none => (none, cs2)
          | _ => (none, cs2)
        let cs4 := cs3.dropWhile jsIsSpace
        let mer : Option Meridiem :=
          match cs4 with
          | a :: b :: _ =>
            if (a = 'A' ∧ b = 'M') ∨ (a = 'a' ∧ b = 'm') then some Meridiem.AM
            else if (a = 'P' ∧ b = 'M') ∨ (a = 'p' ∧ b = 'm') then some Meridiem.PM
            else none
          | _ => none
        some ⟨digitsToNat hs, digitsToNat ms, (sec.getD 0), mer⟩
    | _ => none
  else none

/-- Leftmost match of a position matcher, the regex engine's scan over start
positions. -/
def firstMatchSome {α : Type} (f : List Char → Option α) : List Char → Option α
  | [] => f []
  | c :: rest =>
    match f (c :: rest) with
    | some r => some r
    | none => firstMatchSome f rest

/-- The `parseTimestamp` function: split the date on slashes, resolve the
day/month order from the hint (falling back to the field-value heuristics and
the day-first default), normalize two-digit years by adding 2000, search the
time string with the time regex, apply the meridiem, and build the
millisecond timestamp. -/
def parseTimestamp (datePart timePart : String) (dateOrderHint : Option DateOrder) :
    Option Int :=
  match splitOnChar '/' datePart with
  | [p1, p2, p3] =>
    let part1 := jsParseInt p1
    let part2 := jsParseInt p2
    let part3 := jsParseInt p3
    let (day, month, year) :=
      match dateOrderHint with
      | some DateOrder.DMY => (part1, part2, part3)
      | some DateOrder.MDY => (part2, part1, part3)
      | none =>
        if 12 < part1 then (part1, part2, part3)
        else if 12 < part2 then (part2, part1, part3)
        else (part1, part2, part3)
    let year := if year < 100 then year + 2000 else year
    match firstMatchSome matchTimeAt timePart.data with
    | none => none
    | some t =>
      let hours : Int :=
        if t.meridiem = some Meridiem.PM ∧ t.hours < 12 then (t.hours : Int) + 12
        else if t.meridiem = some Meridiem.AM ∧ t.hours = 12 then 0
        else (t.hours : Int)
      some (jsDateMs (year : Int) ((month : Int) - 1) (day : Int) hours
        (t.minutes : Int) (t.seconds : Int))
  | _ => none

/-! ## Line classification (`matchMessageLine`, `matchSystemLine`) -/

/-- The parsed fields of a message-start line (`MessageMatch` in
`chatParser.ts`), with the timestamp already resolved to milliseconds. -/
structure MessageMatch where
  timestamp : Int
  sender : String
  content : String
  line : String
  isSystemLine : Bool := false
deriving Repr, DecidableEq

/-- The date token `(\d{1,2}\/\d{1,2}\/\d{2,4})` of the line regexes,
followed in every use by `,?\s+`: a third field run longer than four digits
can never match, because backtracking still leaves a digit where the
comma/whitespace is required. Returns the captured characters and the rest. -/
def matchDateToken (cs : List Char) : Option (List Char × List Char) :=
  let d1 := cs.takeWhile Char.isDigit
  if 1 ≤ d1.length ∧ d1.length ≤ 2 then
    match cs.drop d1.length with
    | '/' :: cs1 =>
      let d2 := cs1.takeWhile Char.isDigit
      if 1 ≤ d2.length ∧ d2.length ≤ 2 then
        match cs1.drop d2.length with
        | '/' :: cs2 =>
          let d3 := cs2.takeWhile Char.isDigit
          if 2 ≤ d3.length ∧ d3.length ≤ 4 then
            some (d1 ++ '/' :: d2 ++ '/' :: d3, cs2.drop d3.length)
          else none
        | _ => none
      else none
    | _ => none
  else none

/-- The separator `,?\s+` after the date token. -/
def skipCommaWs (cs : List Char) : Option (List Char) :=
  let cs := match cs with
    | ',' :: rest => rest
    | cs => cs
  match cs with
  | c :: rest => if jsIsSpace c then some (rest.dropWhile jsIsSpace) else none
  | [] => none

/-- The captured time group `(\d{1,2}:\d{2}(?::\d{2})?\s*(?:AM|PM|am|pm)?)`:
the inner `\s*` and the meridiem belong to the capture. Returns the captured
characters and the rest. -/
def matchTimeToken (cs : List Char) : Option (List Char × List Char) :=
  let hs := cs.takeWhile Char.isDigit
  if 1 ≤ hs.length ∧ hs.length ≤ 2 then
    match cs.drop hs.length with
    | ':' :: cs1 =>
      match exactDigits 2 cs1 with
      | none => none
      | some (ms, cs2) =>
        let (secPart, cs3) :=
          match cs2 with
          | ':' :: cs2' =>
            match exactDigits 2 cs2' with
            | some (ss, rest) => (':' :: ss, rest)
            | none => (([] : List Char), cs2)
          | _ => (([] : List Char), cs2)
        let wsPart := cs3.takeWhile jsIsSpace
        let cs4 := cs3.drop wsPart.length
        let (merPart, cs5) :=
          match cs4 with
          | a :: b :: rest =>
            if (a = 'A' ∧ b = 'M') ∨ (a = 'P' ∧ b = 'M') ∨
                (a = 'a' ∧ b = 'm') ∨ (a = 'p' ∧ b = 'm') then
              ([a, b], rest)
            else (([] : List Char), cs4)
          | _ => (([] : List Char), cs4)
        some (hs ++ ':' :: ms ++ secPart ++ wsPart ++ merPart, cs5)
    | _ => none
  else none

/-- The time group of the European variant, `(\d{1,2}:\d{2}(?::\d{2})?)`:
no whitespace or meridiem inside the capture. -/
def matchTimeTokenNoMer (cs : List Char) : Option (List Char × List Char) :=
  let hs := cs.takeWhile Char.isDigit
  if 1 ≤ hs.length ∧ hs.length ≤ 2 then
    match cs.drop hs.length with
    | ':' :: cs1 =>
      match exactDigits 2 cs1 with
      | none => none
      | some (ms, cs2) =>
        let (secPart, cs3) :=
          match cs2 with
          | ':' :: cs2' =>
            match exactDigits 2 cs2' with
            | some (ss, rest) => (':' :: ss, rest)
            | none => (([] : List Char), cs2)
          | _ => (([] : List Char), cs2)
        some (hs ++ ':' :: ms ++ secPart, cs3)
    | _ => none
  else none

/-- The dash separator `\s*[-–]` (the following `\s*` is absorbed into the
sender matcher, which models its backtracking). -/
def skipDashSep (cs : List Char) : Option (List Char) :=
  match cs.dropWhile jsIsSpace with
  | c :: rest => if c = '-' ∨ c = '–' then some rest else none
  | _ => none

/-- The suffix `\s*([^:]+?):\s*(.*)$`: the greedy `\s*` backs off one
character when everything before the first colon is whitespace, so the lazy
sender capture is never empty. Requires a colon no earlier than the second
remaining character position after the whitespace run is maximized. -/
def senderAfterWs (cs : List Char) : Option (List Char × List Char) :=
  let i := (cs.takeWhile (fun c => c ≠ ':')).length
  if 1 ≤ i ∧ i < cs.length then
    let wsRun := (cs.takeWhile jsIsSpace).length
    let j := min wsRun (i - 1)
    some ((cs.drop j).take (i - j), (cs.drop (i + 1)).dropWhile jsIsSpace)
  else none

/-- The Android message regex
`^(date),?\s+(time)\s*[-–]\s*([^:]+?):\s*(.*)$`. Returns date capture, time
capture, sender capture and content capture. -/
def matchAndroidLine (line : String) :
    Option (List Char × List Char × List Char × List Char) := do
  let (datePart, cs1) ← matchDateToken line.data
  let cs2 ← skipCommaWs cs1
  let (timePart, cs3) ← matchTimeToken cs2
  let cs4 ← skipDashSep cs3
  let (sender, content) ← senderAfterWs cs4
  pure (datePart, timePart, sender, content)

/-- The iOS message regex `^\[(date),?\s+(time)\]\s*([^:]+?):\s*(.*)$`. -/
def matchIosLine (line : String) :
    Option (List Char × List Char × List Char × List Char) :=
  match line.data with
  | '[' :: cs0 => do
    let (datePart, cs1) ← matchDateToken cs0
    let cs2 ← skipCommaWs cs1
    let (timePart, cs3) ← matchTimeToken cs2
    match cs3 with
    | ']' :: cs4 => do
      let (sender, content) ← senderAfterWs cs4
      pure (datePart, timePart, sender, content)
    | _ => none
  | _ => none

/-- The European message regex, the Android one with a meridiem-free time
capture (its language is contained in the Android pattern's, so it can only
confirm an Android match). -/
def matchEuropeanLine (line : String) :
    Option (List Char × List Char × List Char × List Char) := do
  let (datePart, cs1) ← matchDateToken line.data
  let cs2 ← skipCommaWs cs1
  let (timePart, cs3) ← matchTimeTokenNoMer cs2
  let cs4 ← skipDashSep cs3
  let (sender, content) ← senderAfterWs cs4
  pure (datePart, timePart, sender, content)

/-- The `matchMessageLine` function: try the Android, iOS and European
patterns in order, resolve the timestamp with the date-order hint, and
normalize sender and content. Always produces a non-system match. -/
def matchMessageLine (line : String) (dateOrder : DateOrder) : Option MessageMatch :=
  match (matchAndroidLine line).orElse
      (fun _ => (matchIosLine line).orElse (fun _ => matchEuropeanLine line)) with
  | some (datePart, timePart, sender, content) =>
    match parseTimestamp (String.mk datePart) (String.mk timePart) (some dateOrder) with
    | some timestamp =>
      some ⟨timestamp, normalizeWaText (String.mk sender),
        normalizeWaText (String.mk content), line, false⟩
    | none => none
  | none => none

/-- The Android system regex `^(date),?\s+(time)\s*[-–]\s*(.*)$`: like the
message pattern but with an unstructured remainder. -/
def matchAndroidSystem (line : String) :
    Option (List Char × List Char × List Char) := do
  let (datePart, cs1) ← matchDateToken line.data
  let cs2 ← skipCommaWs cs1
  let (timePart, cs3) ← matchTimeToken cs2
  let cs4 ← skipDashSep cs3
  pure (datePart, timePart, cs4.dropWhile jsIsSpace)

/-- The iOS system regex `^\[(date),?\s+(time)\]\s*(.*)$`. -/
def matchIosSystem (line : String) :
    Option (List Char × List Char × List Char) :=
  match line.data with
  | '[' :: cs0 => do
    let (datePart, cs1) ← matchDateToken cs0
    let cs2 ← skipCommaWs cs1
    let (timePart, cs3) ← matchTimeToken cs2
    match cs3 with
    | ']' :: cs4 => pure (datePart, timePart, cs4.dropWhile jsIsSpace)
    | _ => none
  | _ => none

/-- The disqualifying test `/^[^:]+?:\s/` on a system line's remainder: a
first colon at position one or later followed by a whitespace character. -/
def looksLikeSenderRest (cs : List Char) : Bool :=
  let i := (cs.takeWhile (fun c => c ≠ ':')).length
  decide (1 ≤ i) && decide (i + 1 < cs.length) && jsIsSpace (cs.getD (i + 1) 'x')

/-- The `matchSystemLine` function: a timestamp-prefixed line with no
`sender:` shape becomes a system match (sender "System") when its remainder
normalizes to something non-empty. -/
def matchSystemLine (line : String) (dateOrder : DateOrder) : Option MessageMatch :=
  match (matchAndroidSystem line).orElse (fun _ => matchIosSystem line) with
  | none => none
  | some (datePart, timePart, rest) =>
    if looksLikeSenderRest rest then none
    else
      match parseTimestamp (String.mk datePart) (String.mk timePart) (some dateOrder) with
      | none => none
      | some timestamp =>
        let cleaned := normalizeWaText (String.mk rest)
        if cleaned = "" then none
        else some ⟨timestamp, "System", cleaned, line, true⟩

/-- The `startsWithTimestamp` salvage test of `parseMessages`:
`^\s*\[?date,?\s+\d{1,2}:\d{2}(:\d{2})?\s*(am|pm|AM|PM)?\s*\]`, whose closing
bracket is mandatory. -/
def startsWithTimestampCheck (line : String) : Bool :=
  let cs := line.data.dropWhile jsIsSpace
  let cs := match cs with
    | '[' :: rest => rest
    | cs => cs
  match matchDateToken cs with
  | none => false
  | some (_, cs1) =>
    match skipCommaWs cs1 with
    | none => false
    | some cs2 =>
      match matchTimeToken cs2 with
      | none => false
      | some (_, cs3) =>
        match cs3.dropWhile jsIsSpace with
        | ']' :: _ => true
        | _ => false

/-! ## Message assembly (`detectMessageType`, `findMediaFile`, quotes, calls) -/

/-- Case-insensitive prefix test against a lowercase pattern. -/
def startsWithCI (cs pat : List Char) : Bool :=
  startsWithChars (cs.map Char.toLower) pat

/-- Leftmost match of a position matcher together with its start position. -/
def scanPos {α : Type} (f : List Char → Option α) : List Char → Option (Nat × α)
  | [] => (f []).map (fun r => (0, r))
  | c :: rest =>
    match f (c :: rest) with
    | some r => some (0, r)
    | none => (scanPos f rest).map (fun p => (p.1 + 1, p.2))

/-- The pattern `<attached:\s*(.+?)>` at one position: the case-insensitive
literal, greedy whitespace (backing off one character when the filename would
otherwise be empty), and a lazy capture up to the first closing bracket.
Returns the matched length and the filename capture. -/
def tryAttached (cs : List Char) : Option (Nat × List Char) :=
  if startsWithCI cs "<attached:".data then
    let cs1 := cs.drop 10
    let i := (cs1.takeWhile (fun c => c ≠ '>')).length
    if 1 ≤ i ∧ i < cs1.length then
      let j := min ((cs1.takeWhile jsIsSpace).length) (i - 1)
      some (10 + i + 1, (cs1.drop j).take (i - j))
    else none
  else none

/-- The pattern `(.+?)\s*\(file attached\)`: its lazy leading capture makes
every match start at position zero, ending at the first occurrence (at
position one or later) of the case-insensitive literal. Returns the matched
length and the filename capture (the prefix with the separating whitespace
backed off, but never empty). -/
def tryFileAttached (cs : List Char) : Option (Nat × List Char) :=
  match cs with
  | [] => none
  | _ :: rest =>
    match scanPos
        (fun s => if startsWithCI s "(file attached)".data then some () else none)
        rest with
    | none => none
    | some (i, _) =>
      let k := i + 1
      let wsBefore := ((cs.take k).reverse.takeWhile jsIsSpace).length
      let e := max 1 (k - wsBefore)
      some (k + 15, cs.take e)

/-- A `\w` word character (`[A-Za-z0-9_]`). -/
def isWordChar (c : Char) : Bool := c.isAlpha || c.isDigit || c = '_'

/-- The anchored device-file pattern `^TAG-\d+-WA\d+\.\w+$` (case
insensitive), for a lowercase `tag`. -/
def matchBareTagged (tag : List Char) (cs : List Char) : Bool :=
  if startsWithCI cs (tag ++ ['-']) then
    let cs1 := cs.drop (tag.length + 1)
    let d1 := cs1.takeWhile Char.isDigit
    if 1 ≤ d1.length ∧ startsWithCI (cs1.drop d1.length) "-wa".data then
      let cs2 := cs1.drop (d1.length + 3)
      let d2 := cs2.takeWhile Char.isDigit
      if 1 ≤ d2.length then
        match cs2.drop d2.length with
        | '.' :: ext => decide (1 ≤ ext.length) && ext.all isWordChar
        | _ => false
      else false
    else false
  else false

/-- The anchored sticker pattern `^STK-\d+-WA\d+\.webp$` (case
insensitive). -/
def matchBareSticker (cs : List Char) : Bool :=
  if startsWithCI cs "stk-".data then
    let cs1 := cs.drop 4
    let d1 := cs1.takeWhile Char.isDigit
    if 1 ≤ d1.length ∧ startsWithCI (cs1.drop d1.length) "-wa".data then
      let cs2 := cs1.drop (d1.length + 3)
      let d2 := cs2.takeWhile Char.isDigit
      if 1 ≤ d2.length then
        match cs2.drop d2.length with
        | '.' :: ext => ext.map Char.toLower = "webp".data
        | _ => false
      else false
    else false
  else false

/-- The `mediaPatterns` loop of `detectMessageType`: try the eight patterns in
order; on a match return the referenced filename and the caption (the input
with the matched span removed, trimmed - `c.replace(pattern, new String).trim()`
with an empty replacement). -/
def firstMediaPatternMatch (c : String) : Option (String × String) :=
  let cs := c.data
  match scanPos tryAttached cs with
  | some (pos, (len, fname)) =>
    some (String.mk fname, jsTrim (String.mk (cs.take pos ++ cs.drop (pos + len))))
  | none =>
  match tryFileAttached cs with
  | some (len, fname) => some (String.mk fname, jsTrim (String.mk (cs.drop len)))
  | none =>
  if matchBareTagged "img".data cs then some (c, "")
  else if matchBareTagged "vid".data cs then some (c, "")
  else if matchBareTagged "aud".data cs then some (c, "")
  else if matchBareTagged "ptt".data cs then some (c, "")
  else if matchBareSticker cs then some (c, "")
  else if matchBareTagged "doc".data cs then some (c, "")
  else none

/-- JavaScript `.split(sep).pop() || new String` for path basenames. -/
def lastPathSegment (s : String) : String :=
  (splitOnChar '/' s).getLastD ""

/-- Whether `pat` is a suffix of `cs`. -/
def endsWithChars (cs pat : List Char) : Bool :=
  decide (pat.length ≤ cs.length) &&
    startsWithChars (cs.drop (cs.length - pat.length)) pat

/-- The optional `-HH-MM-SS` extension of the date-portion regex. -/
def tryTimeExt (cs : List Char) : Option (List Char) :=
  match cs with
  | '-' :: cs1 => do
    let (e1, cs2) ← exactDigits 2 cs1
    match cs2 with
    | '-' :: cs3 => do
      let (e2, cs4) ← exactDigits 2 cs3
      match cs4 with
      | '-' :: cs5 => do
        let (e3, _) ← exactDigits 2 cs5
        pure ('-' :: e1 ++ '-' :: e2 ++ '-' :: e3)
      | _ => none
    | _ => none
  | _ => none

/-- The date-portion regex `(\d{4}-\d{2}-\d{2}(?:-\d{2}-\d{2}-\d{2})?)` at
one position, with the optional time extension taken greedily. -/
def tryDateAt (cs : List Char) : Option (List Char) := do
  let (d1, cs1) ← exactDigits 4 cs
  match cs1 with
  | '-' :: cs2 => do
    let (d2, cs3) ← exactDigits 2 cs2
    match cs3 with
    | '-' :: cs4 => do
      let (d3, cs5) ← exactDigits 2 cs4
      let base := d1 ++ '-' :: d2 ++ '-' :: d3
      match tryTimeExt cs5 with
      | some ext => pure (base ++ ext)
      | none => pure base
    | _ => none
  | _ => none

/-- The `findMediaFile` function: case-insensitive lookup through the five
strategies in order - exact (full or path-suffix) match, exact basename
match, substring match, leading numeric id of at least five digits, and date
substring. -/
def findMediaFile (fileName : String) (mediaFiles : List MediaFile) :
    Option MediaFile :=
  let normalizedName := jsTrim (jsToLower fileName)
  let popped := (splitOnChar '/' normalizedName).getLastD ""
  let baseFileName := if popped = "" then normalizedName else popped
  let numericId := baseFileName.data.takeWhile Char.isDigit
  let datePortion := (firstMatchSome tryDateAt baseFileName.data).getD []
  match mediaFiles.find? (fun file =>
    let fl := jsToLower file.fileName
    fl = normalizedName || endsWithChars fl.data ('/' :: normalizedName.data)) with
  | some m => some m
  | none =>
  match mediaFiles.find? (fun file =>
    lastPathSegment (jsToLower file.fileName) = baseFileName) with
  | some m => some m
  | none =>
  match mediaFiles.find? (fun file =>
    hasSubstr (jsToLower file.fileName).data baseFileName.data) with
  | some m => some m
  | none =>
  match (if 5 ≤ numericId.length then
      mediaFiles.find? (fun file =>
        hasSubstr (lastPathSegment (jsToLower file.fileName)).data numericId)
    else none) with
  | some m => some m
  | none =>
    if datePortion ≠ [] then
      mediaFiles.find? (fun file =>
        hasSubstr (lastPathSegment (jsToLower file.fileName)).data datePortion)
    else none

/-- The `getMessageTypeFromMime` function (the sticker arm is shadowed by the
`image/` prefix test, as in the source). -/
def getMessageTypeFromMime (mimeType : String) : MessageType :=
  if startsWithChars mimeType.data "image/".data then MessageType.image
  else if startsWithChars mimeType.data "video/".data then MessageType.video
  else if startsWithChars mimeType.data "audio/".data then MessageType.audio
  else if mimeType = "image/webp" then MessageType.sticker
  else MessageType.document

/-- The anchored omitted-media placeholder tests
(`/^image omitted$/i` and friends). -/
def isOmittedMedia (c : String) : Bool :=
  let lc := jsToLower c
  lc = "image omitted" || lc = "video omitted" || lc = "audio omitted" ||
  lc = "sticker omitted" || lc = "document omitted" || lc = "gif omitted"

/-- The result record of `detectMessageType`. -/
structure DetectedType where
  type : MessageType
  mediaUrl : Option String := none
  mediaFileName : Option String := none
  mediaMimeType : Option String := none
  mediaSize : Option Nat := none
  driveFileId : Option String := none
  thumbnailUrl : Option String := none
  finalContent : String
deriving Repr, DecidableEq

/-- The `detectMessageType` function: normalize, drop omitted-media
placeholders, resolve the first matching media pattern against the attachment
index (an unresolved reference downgrades to text with a placeholder), and
fall through to plain text. -/
def detectMessageType (content : String) (mediaFiles : List MediaFile) :
    DetectedType :=
  let c := normalizeWaText content
  if isOmittedMedia c then { type := MessageType.text, finalContent := "__OMITTED_MEDIA__" }
  else
    match firstMediaPatternMatch c with
    | some (fileName, caption) =>
      match findMediaFile fileName mediaFiles with
      | some mediaFile =>
        { type := getMessageTypeFromMime mediaFile.mimeType,
          mediaUrl := some mediaFile.url,
          mediaFileName := some mediaFile.fileName,
          mediaMimeType := some mediaFile.mimeType,
          mediaSize := mediaFile.size,
          driveFileId := mediaFile.driveFileId,
          thumbnailUrl := mediaFile.thumbnailLink,
          finalContent := caption }
      | none =>
        { type := MessageType.text,
          finalContent :=
            if caption = "" then "[Media not found: " ++ fileName ++ "]" else caption }
    | none => { type := MessageType.text, finalContent := c }

/-- The `stripEditedMarker` function: remove the last occurrence of the
edited-marker literal and trim; report whether it was present. -/
def stripEditedMarker (text : String) : String × Bool :=
  let marker := "<This message was edited>".data
  let idxs := (List.range (text.data.length + 1)).filter
    (fun i => startsWithChars (text.data.drop i) marker)
  match idxs.getLast? with
  | none => (text, false)
  | some idx =>
    (jsTrim (String.mk (text.data.take idx ++ text.data.drop (idx + marker.length))),
      true)

/-- The quoted-head regex `^(.+?):\s(.+)$` on a first line: the lazy capture
stops at the first colon that is followed by one whitespace character and at
least one further character; earlier colons failing that test are absorbed
into the capture. Returns the index of that colon. -/
def quoteHeadIdx (cs : List Char) : Option Nat :=
  (List.range cs.length).find? (fun i =>
    decide (1 ≤ i) && decide (cs.getD i 'x' = ':') &&
      decide (i + 2 < cs.length) && jsIsSpace (cs.getD (i + 1) 'x'))

/-- The two captures of the quoted-head regex. -/
def matchQuoteHead (cs : List Char) : Option (List Char × List Char) :=
  match quoteHeadIdx cs with
  | none => none
  | some i => some (cs.take i, cs.drop (i + 2))

/-- The result of `extractQuotedMessage`. -/
structure QuoteResult where
  cleaned : String
  quotedMessage : Option QuotedMessage := none
deriving Repr, DecidableEq

/-- The `extractQuotedMessage` function: split on newlines; when the trimmed
first line has the `sender: text` shape with non-empty trimmed sender and
text and the trimmed remainder is non-empty, the remainder becomes the
content and the first line the quote; otherwise the body is unchanged. -/
def extractQuotedMessage (text : String) : QuoteResult :=
  let parts := splitOnChar '\n' text
  if parts.length < 2 then { cleaned := text }
  else
    let first := jsTrim parts.headI
    let rest := jsTrim (joinWithChar '\n' parts.tail)
    match matchQuoteHead first.data with
    | none => { cleaned := text }
    | some (m1, m2) =>
      let quotedSender := jsTrim (String.mk m1)
      let quotedContent := jsTrim (String.mk m2)
      if quotedSender = "" ∨ quotedContent = "" ∨ rest = "" then { cleaned := text }
      else { cleaned := rest, quotedMessage := some ⟨quotedSender, quotedContent⟩ }

/-- The result of `detectCallLog`. -/
structure CallInfo where
  isCall : Bool
  callDuration : Option String := none
  callKind : Option CallKind := none
  callMissed : Option Bool := none
deriving Repr, DecidableEq

/-- The `detectCallLog` function: missed-call prefixes first, then the
anchored `^voice call(?:,)?\s*(.*)$` and video variants; the final `(.*)$`
cannot cross a newline, and an empty trimmed duration becomes `undefined`. -/
def detectCallLog (text : String) : CallInfo :=
  let t := jsTrim text
  if startsWithCI t.data "missed voice call".data then
    ⟨true, none, some CallKind.voice, some true⟩
  else if startsWithCI t.data "missed video call".data then
    ⟨true, none, some CallKind.video, some true⟩
  else if startsWithCI t.data "voice call".data then
    let tail := t.data.drop 10
    let tail := match tail with
      | ',' :: r => r
      | r => r
    let rest := tail.dropWhile jsIsSpace
    if rest.contains '\n' then ⟨false, none, none, none⟩
    else
      let dur := jsTrim (String.mk rest)
      ⟨true, if dur = "" then none else some dur, some CallKind.voice, none⟩
  else if startsWithCI t.data "video call".data then
    let tail := t.data.drop 10
    let tail := match tail with
      | ',' :: r => r
      | r => r
    let rest := tail.dropWhile jsIsSpace
    if rest.contains '\n' then ⟨false, none, none, none⟩
    else
      let dur := jsTrim (String.mk rest)
      ⟨true, if dur = "" then none else some dur, some CallKind.video, none⟩
  else ⟨false, none, none, none⟩

/-- The configured local identity of `src/config/userIdentity.ts`. -/
def USER_DISPLAY_NAME : String := "Rajiv"

/-- The configured phone numbers of `src/config/userIdentity.ts`. -/
def USER_PHONE_NUMBERS : List String := ["+919886031088", "9886031088"]

/-- The `normalizePhone` function: keep digits only and truncate to the final
ten when a country code is present. -/
def normalizePhone (input : String) : String :=
  let digits := input.data.filter Char.isDigit
  if 10 < digits.length then String.mk (digits.drop (digits.length - 10))
  else String.mk digits

/-- The `isMeSender` function: trimmed-name or normalized-phone match against
the configured identity. -/
def isMeSender (sender : String) : Bool :=
  let s := jsTrim sender
  if s = "" then false
  else if jsToLower s = jsToLower USER_DISPLAY_NAME then true
  else
    let senderPhone := normalizePhone s
    if senderPhone = "" then false
    else USER_PHONE_NUMBERS.any (fun p => normalizePhone p = senderPhone)

/-- Replace every character outside `[a-z0-9]` with an underscore. -/
def replaceNonAlnum (s : String) : String :=
  String.mk (s.data.map (fun c =>
    if ('a' ≤ c ∧ c ≤ 'z') ∨ ('0' ≤ c ∧ c ≤ '9') then c else '_'))

/-- The `generateMessageId` function (the underscore replacement runs before
the lowercasing, as in the source). -/
def generateMessageId (timestamp : Int) (sender : String) (seq : Nat) : String :=
  "msg_" ++ toString timestamp ++ "_" ++ toString seq ++ "_" ++
    jsToLower (replaceNonAlnum sender)

/-- The `createMessage` function: detect the type and media linkage, strip
the edited marker, extract a quoted reply, detect call logs, and classify as
system only from the line classifier's flag. -/
def createMessage (mtch : MessageMatch) (mediaFiles : List MediaFile) (seq : Nat) :
    Message :=
  let d := detectMessageType mtch.content mediaFiles
  let stripped := stripEditedMarker d.finalContent
  let q := extractQuotedMessage stripped.1
  let call := detectCallLog q.cleaned
  let isSystem := mtch.isSystemLine
  let isOutgoing := !isSystem && isMeSender mtch.sender
  { id := generateMessageId mtch.timestamp mtch.sender seq,
    timestamp := mtch.timestamp,
    sender := mtch.sender,
    type := if isSystem then MessageType.system
      else if call.isCall then MessageType.call else d.type,
    content := q.cleaned,
    mediaUrl := d.mediaUrl,
    mediaFileName := d.mediaFileName,
    mediaMimeType := d.mediaMimeType,
    mediaSize := d.mediaSize,
    driveFileId := d.driveFileId,
    thumbnailUrl := d.thumbnailUrl,
    isOutgoing := isOutgoing,
    isEdited := if stripped.2 then some true else none,
    quotedMessage := q.quotedMessage,
    callDuration := call.callDuration,
    callKind := call.callKind,
    callMissed := call.callMissed }

/-! ## Message parsing loop (`parseMessages`) and `parseChatFile` -/

/-- The loop state of `parseMessages`: finished messages, the open
multi-line accumulator, and collected errors. -/
structure ParseState where
  messages : List Message
  currentMessage : Option MessageMatch
  errors : List String
deriving Repr, DecidableEq

/-- Take the first fifty characters (`line.substring(0, 50)`). -/
def take50 (s : String) : String := String.mk (s.data.take 50)

/-- One iteration of the `parseMessages` line loop: normalize, skip blanks,
start a new message on a match (flushing the open one), otherwise treat the
line as a continuation - unless it starts with an unparsable timestamp, in
which case the open message is flushed (if non-blank) and the line dropped -
and record an error for unmatched lines beyond the first five. -/
def parseLineStep (mediaFiles : List MediaFile) (dateOrder : DateOrder)
    (st : ParseState) (iline : Nat × String) : ParseState :=
  let i := iline.1
  let line := normalizeWaText iline.2
  if line = "" then st
  else
    match (matchMessageLine line dateOrder).orElse
        (fun _ => matchSystemLine line dateOrder) with
    | some m =>
      let messages := match st.currentMessage with
        | some cur => st.messages ++ [createMessage cur mediaFiles st.messages.length]
        | none => st.messages
      ⟨messages, some m, st.errors⟩
    | none =>
      match st.currentMessage with
      | some cur =>
        if startsWithTimestampCheck line then
          let messages :=
            if jsTrim cur.content ≠ "" then
              st.messages ++ [createMessage cur mediaFiles st.messages.length]
            else st.messages
          ⟨messages, none, st.errors⟩
        else
          ⟨st.messages, some { cur with content := cur.content ++ "\n" ++ line },
            st.errors⟩
      | none =>
        if i < 5 then st
        else
          ⟨st.messages, none, st.errors ++
            ["Could not parse line " ++ toString (i + 1) ++ ": " ++
              take50 line ++ "..."]⟩

/-- The `parseMessages` loop before its final filter: run the line loop over
the numbered lines and flush the last open message. Returns the messages and
the errors pushed. -/
def parseMessagesRaw (content : String) (mediaFiles : List MediaFile) :
    List Message × List String :=
  let lines := splitOnChar '\n' content
  let dateOrder := inferDateOrder lines
  let fin := lines.enum.foldl (parseLineStep mediaFiles dateOrder) ⟨[], none, []⟩
  let messages := match fin.currentMessage with
    | some cur => fin.messages ++ [createMessage cur mediaFiles fin.messages.length]
    | none => fin.messages
  (messages, fin.errors)

/-- The final filter of `parseMessages`: non-text messages are kept, the
omitted-media sentinel is dropped, and text is kept only with non-blank
content. -/
def keepMessage (msg : Message) : Bool :=
  if msg.type ≠ MessageType.text then true
  else if msg.content = "__OMITTED_MEDIA__" then false
  else decide (0 < (jsTrim msg.content).length)

/-- The `parseMessages` function: the raw loop followed by the filter. -/
def parseMessages (content : String) (mediaFiles : List MediaFile) :
    List Message × List String :=
  let r := parseMessagesRaw content mediaFiles
  (r.1.filter keepMessage, r.2)

/-- The apostrophe character (written by code point to keep the embedding
plain ASCII). -/
def apos : Char := Char.ofNat 39

/-- Strip a case-insensitive prefix, the `^...` replacement idiom. -/
def stripLeadCI (s : String) (pat : String) : String :=
  if startsWithCI s.data pat.data then String.mk (s.data.drop pat.data.length)
  else s

/-- The `extractChatName` function: drop the `.txt` extension and the export
prefixes, blank a bare `_chat`, trim, and fall back to "Unnamed Chat". -/
def extractChatName (fileName : String) : String :=
  let name := if endsWithChars (jsToLower fileName).data ".txt".data then
      String.mk (fileName.data.take (fileName.data.length - 4))
    else fileName
  let name := stripLeadCI name "whatsapp chat with "
  let name := stripLeadCI name "whatsapp chat - "
  let name := stripLeadCI name "chat with "
  let name := if jsToLower name = "_chat" then "" else name
  let name := jsTrim name
  if name = "" ∨ jsToLower name = "chat" then "Unnamed Chat" else name

/-- Whitespace `\s+` (at least one, then greedy). -/
def skipWsPlus (cs : List Char) : Option (List Char) :=
  match cs with
  | c :: rest => if jsIsSpace c then some (rest.dropWhile jsIsSpace) else none
  | [] => none

/-- A quoted capture `["“](.+?)["”]`: an opening straight or curly quote,
then a lazy non-newline capture up to the first closing quote. Returns the
capture and the rest. -/
def quotedCapture (cs : List Char) : Option (List Char × List Char) :=
  match cs with
  | c :: rest =>
    if c = '"' ∨ c = '“' then
      let body := rest.takeWhile (fun c => c ≠ '"' ∧ c ≠ '”')
      if 1 ≤ body.length ∧ body.length < rest.length ∧ !body.contains '\n' then
        some (body, rest.drop (body.length + 1))
      else none
    else none
  | [] => none

/-- The pattern `created group\s+["“](.+?)["”]` at one position. -/
def tryCreatedGroup (cs : List Char) : Option (List Char) :=
  if startsWithCI cs "created group".data then do
    let cs1 ← skipWsPlus (cs.drop 13)
    let (body, _) ← quotedCapture cs1
    pure body
  else none

/-- The pattern `changed the subject to\s+["“](.+?)["”]` at one position. -/
def trySubjectTo (cs : List Char) : Option (List Char) :=
  if startsWithCI cs "changed the subject to".data then do
    let cs1 ← skipWsPlus (cs.drop 22)
    let (body, _) ← quotedCapture cs1
    pure body
  else none

/-- The pattern
`changed the subject from\s+["“].+?["”]\s+to\s+["“](.+?)["”]` at one
position. -/
def trySubjectFromTo (cs : List Char) : Option (List Char) :=
  if startsWithCI cs "changed the subject from".data then do
    let cs1 ← skipWsPlus (cs.drop 24)
    let (_, cs2) ← quotedCapture cs1
    let cs3 ← skipWsPlus cs2
    if startsWithCI cs3 "to".data then do
      let cs4 ← skipWsPlus (cs3.drop 2)
      let (body, _) ← quotedCapture cs4
      pure body
    else none
  else none

/-- The unquoted multiline pattern `changed the subject to\s+(.+?)$` at one
position: the capture is the remainder of the line. A capture that is pure
trailing whitespace trims to the empty string and is rejected later, exactly
as in the source. -/
def trySubjectToLine (cs : List Char) : Option (List Char) :=
  if startsWithCI cs "changed the subject to".data then
    match skipWsPlus (cs.drop 22) with
    | none => none
    | some cs1 =>
      let body := cs1.takeWhile (fun c => c ≠ '\n')
      if 1 ≤ body.length then some body else none
  else none

/-- The validation loop of `deriveChatNameFromContent`: the first pattern
whose trimmed capture is non-empty and at most eighty characters wins. -/
def firstValidName : List (Option String) → Option String
  | [] => none
  | some cap :: rest =>
    let name := jsTrim cap
    if name ≠ "" ∧ name.data.length ≤ 80 then some name else firstValidName rest
  | none :: rest => firstValidName rest

/-- The `deriveChatNameFromContent` function: scan the export text with the
four group-subject patterns in order. -/
def deriveChatNameFromContent (raw : String) : Option String :=
  let cs := raw.data
  firstValidName
    [(firstMatchSome tryCreatedGroup cs).map String.mk,
      (firstMatchSome trySubjectTo cs).map String.mk,
      (firstMatchSome trySubjectFromTo cs).map String.mk,
      (firstMatchSome trySubjectToLine cs).map String.mk]

/-- The `detectGroupIndicators` function: case-insensitive substring tests
for group-lifecycle phrases. -/
def detectGroupIndicators (content : String) : Bool :=
  let lc := (jsToLower content).data
  hasSubstr lc "created group".data || hasSubstr lc "added".data ||
  hasSubstr lc "removed".data ||
  hasSubstr lc ("joined using this group".data ++ apos :: "s invite link".data) ||
  hasSubstr lc "changed the subject from".data ||
  hasSubstr lc ("you".data ++ apos :: "re now an admin".data)

/-- The fixed avatar palette of `generateParticipantColors`. -/
def generateParticipantColors : List String :=
  ["#00a884", "#ff6b6b", "#4ecdc4", "#ffd93d", "#a8dadc", "#f4a261",
    "#e76f51", "#2a9d8f", "#e63946", "#06ffa5", "#7209b7", "#f72585"]

/-- The `generateParticipantId` function. -/
def generateParticipantId (name : String) : String :=
  "user_" ++ replaceNonAlnum (jsToLower name)

/-- The `generateChatId` function; `Date.now()` is passed in as `now`. -/
def generateChatId (name : String) (now : Int) : String :=
  "chat_" ++ replaceNonAlnum (jsToLower name) ++ "_" ++ toString now

/-- The `extractParticipants` function: first-seen non-system senders in
order, with palette colors cycled by insertion order. -/
def extractParticipants (messages : List Message) : List Participant :=
  let colors := generateParticipantColors
  let r := messages.foldl
    (fun (acc : List (String × Participant) × Nat) msg =>
      if (acc.1.find? (fun p => p.1 = msg.sender)).isNone ∧
          msg.type ≠ MessageType.system then
        (acc.1 ++ [(msg.sender,
          ⟨generateParticipantId msg.sender, msg.sender,
            colors.getD (acc.2 % colors.length) ""⟩)], acc.2 + 1)
      else acc)
    ([], 0)
  r.1.map (·.2)

/-- The try-block of `parseChatFile`: parse the messages, derive the
participants, classify group versus one-to-one, fix the one-to-one chat name
and participant order via the configured identity, and assemble the chat. -/
def parseChatFileBody (fileName content : String) (mediaFiles : List MediaFile)
    (now : Int) : ChatParseResult :=
  let chatName := extractChatName fileName
  let parsed := parseMessages content mediaFiles
  let messages := parsed.1
  let errors := parsed.2
  let errors := if messages.length = 0 then
      errors ++ ["No messages found in chat file"]
    else errors
  let participants := extractParticipants messages
  let looksLikeGroup := decide (2 < participants.length) || detectGroupIndicators content
  let isOneToOne := participants.length == 2
  let isGroup := looksLikeGroup && !isOneToOne
  let chatName := if chatName = "Unnamed Chat" then
      (deriveChatNameFromContent content).getD chatName
    else chatName
  let me := participants.find? (fun p => isMeSender p.name)
  let other := participants.find? (fun p => !isMeSender p.name)
  let chatName := if isOneToOne then
      (match other with
        | some o => o.name
        | none => chatName)
    else chatName
  let participants := if isOneToOne then
      (match me, other with
        | some m, some o => [o, m]
        | _, _ => participants)
    else participants
  ⟨⟨generateChatId chatName now, chatName, participants, messages, isGroup⟩,
    errors⟩

/-- The `parseChatFile` function. The `exn` argument models an exception
raised anywhere inside the try block (the body itself is total in this
embedding): the catch arm returns the minimal chat carrying the error
message. -/
def parseChatFile (fileName content : String) (mediaFiles : List MediaFile)
    (now : Int) (exn : Option String) : ChatParseResult :=
  match (match exn with
    | some e => Except.error e
    | none => Except.ok (parseChatFileBody fileName content mediaFiles now)) with
  | Except.ok r => r
  | Except.error e =>
    ⟨⟨generateChatId fileName now, fileName, [], [], false⟩,
      ["Failed to parse chat: " ++ e]⟩

theorem getMessageTypeFromMime_ne_system (m : String) :
    getMessageTypeFromMime m ≠ MessageType.system := by
  unfold getMessageTypeFromMime
  split
  · simp
  · split
    · simp
    · split
      · simp
      · split
        · simp
        · simp

theorem detectMessageType_ne_system (content : String) (mediaFiles : List MediaFile) :
    (detectMessageType content mediaFiles).type ≠ MessageType.system := by
  unfold detectMessageType
  dsimp only
  split
  · simp
  · split
    · split
      · exact getMessageTypeFromMime_ne_system _
      · simp
    · simp

/-- C5: a line matched by the user-message classifier (timestamp, sender
colon, body) is never flagged as a system line, and the message assembled
from it is never of type system, whatever its body text says. -/
theorem C5_system_line_exclusivity :
    ∀ (line : String) (order : DateOrder) (m : MessageMatch)
      (mediaFiles : List MediaFile) (seq : Nat),
      matchMessageLine line order = some m →
      m.isSystemLine = false ∧
      (createMessage m mediaFiles seq).type ≠ MessageType.system := by
  intro line order m mediaFiles seq hm
  have hfalse : m.isSystemLine = false := by
    unfold matchMessageLine at hm
    cases h1 : (matchAndroidLine line).orElse
        (fun _ => (matchIosLine line).orElse fun _ => matchEuropeanLine line) with
    | none => rw [h1] at hm; simp at hm
    | some q =>
      obtain ⟨d, t, s, c⟩ := q
      rw [h1] at hm
      dsimp only at hm
      cases h2 : parseTimestamp (String.mk d) (String.mk t) (some order) with
      | none => rw [h2] at hm; simp at hm
      | some ts =>
        rw [h2] at hm
        simp only [Option.some.injEq] at hm
        rw [← hm]
  refine ⟨hfalse, ?_⟩
  unfold createMessage
  dsimp only
  rw [hfalse]
  simp only [Bool.false_eq_true, if_false]
  split
  · simp
  · exact detectMessageType_ne_system _ _

/-- The spec's sample line whose body contains the word "added". -/
def addedLine : String := "12/31/2023, 11:45 PM - John: They added value to my life"

/-- The classifier output for `addedLine`. -/
def addedMatch : MessageMatch :=
  (matchMessageLine addedLine DateOrder.MDY).getD ⟨0, "", "", "", true⟩

/-- Witness for C5 at the concrete "added" line. -/
theorem C5_system_line_exclusivity_witness :
    matchMessageLine addedLine DateOrder.MDY = some addedMatch ∧
    addedMatch.isSystemLine = false ∧
    (createMessage addedMatch [] 0).type ≠ MessageType.system := by
  have h : matchMessageLine addedLine DateOrder.MDY = some addedMatch := by decide
  exact ⟨h,
    (C5_system_line_exclusivity addedLine DateOrder.MDY addedMatch [] 0 h).1,
    (C5_system_line_exclusivity addedLine DateOrder.MDY addedMatch [] 0 h).2⟩

/-- C6: when a body matches a media pattern but the referenced file resolves
to nothing under all `findMediaFile` strategies, assembly yields a text
message whose content is the caption when one remains and otherwise the
non-empty literal placeholder naming the file - never an empty string. -/
theorem C6_media_not_found_placeholder :
    ∀ (content : String) (mediaFiles : List MediaFile) (f caption : String),
      isOmittedMedia (normalizeWaText content) = false →
      firstMediaPatternMatch (normalizeWaText content) = some (f, caption) →
      findMediaFile f mediaFiles = none →
      (detectMessageType content mediaFiles).type = MessageType.text ∧
      (detectMessageType content mediaFiles).finalContent =
        (if caption = "" then "[Media not found: " ++ f ++ "]" else caption) ∧
      (detectMessageType content mediaFiles).finalContent ≠ "" := by
  intro content mediaFiles f caption hom hpat hfind
  have hd : detectMessageType content mediaFiles =
      { type := MessageType.text,
        finalContent :=
          if caption = "" then "[Media not found: " ++ f ++ "]" else caption } := by
    simp [detectMessageType, hom, hpat, hfind]
  refine ⟨by rw [hd], by rw [hd], ?_⟩
  rw [hd]
  by_cases hc : caption = ""
  · simp only [hc, if_true]
    intro h
    have h' := congrArg String.length h
    rw [String.length_append, String.length_append] at h'
    have h18 : String.length "[Media not found: " = 18 := rfl
    have hbr : String.length "]" = 1 := rfl
    have h0 : String.length "" = 0 := rfl
    omega
  · simp only [hc, if_false]
    exact hc

/-- The spec's concrete unresolved media reference. -/
def notFoundBody : String := "<attached: IMG-9999-WA0001.jpg>"

/-- Witness for C6 at the concrete unresolved `<attached: ...>` body. -/
theorem C6_media_not_found_placeholder_witness :
    isOmittedMedia (normalizeWaText notFoundBody) = false ∧
    firstMediaPatternMatch (normalizeWaText notFoundBody) =
      some ("IMG-9999-WA0001.jpg", "") ∧
    findMediaFile "IMG-9999-WA0001.jpg" [] = none ∧
    (detectMessageType notFoundBody []).type = MessageType.text ∧
    (detectMessageType notFoundBody []).finalContent =
      "[Media not found: IMG-9999-WA0001.jpg]" ∧
    (detectMessageType notFoundBody []).finalContent ≠ "" := by
  have h1 : isOmittedMedia (normalizeWaText notFoundBody) = false := by decide
  have h2 : firstMediaPatternMatch (normalizeWaText notFoundBody) =
      some ("IMG-9999-WA0001.jpg", "") := by decide
  have h3 : findMediaFile "IMG-9999-WA0001.jpg" [] = none := by decide
  obtain ⟨ht, hc, hne⟩ :=
    C6_media_not_found_placeholder notFoundBody [] "IMG-9999-WA0001.jpg" "" h1 h2 h3
  refine ⟨h1, h2, h3, ht, ?_, hne⟩
  rw [hc]
  decide

/-- Spec-side description of quoted-reply extraction, written from the
spec's words: a quote is produced exactly when the body's first line matches
the `sender: text` shape with non-empty trimmed sender and quoted text and
the remaining lines are non-empty after trimming; it then carries the
trimmed pieces and the remainder. -/
def quotedReplySpecShape (text : String) : Option (String × String × String) :=
  match splitOnChar '\n' text with
  | [] => none
  | [_] => none
  | first :: rest =>
    let remainder := jsTrim (joinWithChar '\n' rest)
    match matchQuoteHead (jsTrim first).data with
    | none => none
    | some (m1, m2) =>
      let sender := jsTrim (String.mk m1)
      let qcontent := jsTrim (String.mk m2)
      if sender ≠ "" ∧ qcontent ≠ "" ∧ remainder ≠ "" then
        some (sender, qcontent, remainder)
      else none

/-- C9: quoted-reply extraction is conservative - it produces exactly the
quote described by `quotedReplySpecShape`, with the remainder as content,
and in every other case returns the body unchanged with no quote. -/
theorem C9_quote_extraction_conservative :
    ∀ text : String,
      extractQuotedMessage text =
        (match quotedReplySpecShape text with
          | some (s, c, rest) => ⟨rest, some ⟨s, c⟩⟩
          | none => ⟨text, none⟩) := by
  intro text
  unfold extractQuotedMessage quotedReplySpecShape
  cases hp : splitOnChar '\n' text with
  | nil => simp
  | cons first rest =>
    cases rest with
    | nil => simp
    | cons b rs =>
      have hlen : ¬ (first :: b :: rs).length < 2 := by simp
      simp only [hlen, if_false, List.headI, List.tail]
      cases hq : matchQuoteHead (jsTrim first).data with
      | none => simp
      | some p =>
        obtain ⟨m1, m2⟩ := p
        dsimp only
        by_cases hcond : jsTrim (String.mk m1) = "" ∨ jsTrim (String.mk m2) = "" ∨
            jsTrim (joinWithChar '\n' (b :: rs)) = ""
        · rw [if_pos hcond, if_neg (by tauto)]
        · rw [if_neg hcond, if_pos (by tauto)]

/-- C7: `parseChatFile` never propagates an exception - with no exception it
returns the try-block's result, and an exception raised during parsing
degrades to a minimal chat (empty participants and messages, not a group)
with the error message recorded in the errors list. -/
theorem C7_structural_failure_degrades :
    ∀ (fileName content : String) (mediaFiles : List MediaFile) (now : Int)
      (e : String),
      (parseChatFile fileName content mediaFiles now (some e)).chat.participants = [] ∧
      (parseChatFile fileName content mediaFiles now (some e)).chat.messages = [] ∧
      (parseChatFile fileName content mediaFiles now (some e)).chat.isGroup = false ∧
      ("Failed to parse chat: " ++ e) ∈
        (parseChatFile fileName content mediaFiles now (some e)).errors ∧
      parseChatFile fileName content mediaFiles now none =
        parseChatFileBody fileName content mediaFiles now := by
  intro fileName content mediaFiles now e
  refine ⟨rfl, rfl, rfl, ?_, rfl⟩
  show ("Failed to parse chat: " ++ e) ∈ ["Failed to parse chat: " ++ e]
  exact List.mem_singleton.mpr rfl

/-- C10: every text message in the parsed chat has content that is neither
the omitted-media sentinel nor blank after trimming; the returned message
list is exactly the raw assembly filtered by `keepMessage`; and non-text
(media, call, system) messages always pass the filter. -/
theorem C10_text_messages_nonblank :
    ∀ (fileName content : String) (mediaFiles : List MediaFile) (now : Int),
      (∀ m ∈ (parseChatFile fileName content mediaFiles now none).chat.messages,
        m.type = MessageType.text →
          m.content ≠ "__OMITTED_MEDIA__" ∧ jsTrim m.content ≠ "") ∧
      (∀ m : Message, m ∈ (parseMessages content mediaFiles).1 ↔
        (m ∈ (parseMessagesRaw content mediaFiles).1 ∧ keepMessage m = true)) ∧
      (∀ m : Message, m.type ≠ MessageType.text → keepMessage m = true) := by
  intro fileName content mediaFiles now
  have hfilter : ∀ m : Message, m ∈ (parseMessages content mediaFiles).1 ↔
      (m ∈ (parseMessagesRaw content mediaFiles).1 ∧ keepMessage m = true) := by
    intro m
    exact List.mem_filter
  refine ⟨?_, hfilter, ?_⟩
  · intro m hm htext
    have hmem : m ∈ (parseMessages content mediaFiles).1 := hm
    have hk := ((hfilter m).mp hmem).2
    rw [keepMessage] at hk
    rw [if_neg (by simp [htext])] at hk
    by_cases hom : m.content = "__OMITTED_MEDIA__"
    · rw [if_pos hom] at hk
      exact absurd hk (by simp)
    · rw [if_neg hom] at hk
      refine ⟨hom, ?_⟩
      intro he
      have hlen := of_decide_eq_true hk
      rw [he] at hlen
      exact absurd hlen (by decide)
  · intro m hne
    rw [keepMessage, if_pos hne]

/-- A one-line sample export used by the C10 witness. -/
def sampleChatContent : String := "12/31/2023, 11:45 PM - John: hi there"

instance : Inhabited Message :=
  ⟨{ id := "", timestamp := 0, sender := "", type := MessageType.text, content := "" }⟩

/-- The first message parsed from `sampleChatContent`. -/
def sampleParsedMsg : Message :=
  ((parseChatFile "chat.txt" sampleChatContent [] 0 none).chat.messages).headI

/-- Witness for C10 at the one-line sample export. -/
theorem C10_text_messages_nonblank_witness :
    sampleParsedMsg ∈
      (parseChatFile "chat.txt" sampleChatContent [] 0 none).chat.messages ∧
    sampleParsedMsg.type = MessageType.text ∧
    sampleParsedMsg.content ≠ "__OMITTED_MEDIA__" ∧
    jsTrim sampleParsedMsg.content ≠ "" := by
  have hmem : sampleParsedMsg ∈
      (parseChatFile "chat.txt" sampleChatContent [] 0 none).chat.messages := by
    decide
  have htext : sampleParsedMsg.type = MessageType.text := by decide
  obtain ⟨h1, h2⟩ :=
    (C10_text_messages_nonblank "chat.txt" sampleChatContent [] 0).1
      sampleParsedMsg hmem htext
  exact ⟨hmem, htext, h1, h2⟩
